import Mathlib

set_option maxHeartbeats 1000000

/-!
Verification development for a repository holding two Python utilities:
a random password generator (`password_genrator.py`) and a JSON-backed
to-do list manager (`todo.py`).  The Python functions are shallowly
embedded as Lean definitions; randomness, the clock and the file system
are made explicit parameters, and an uncaught Python exception is
modelled as `Option.none`.
-/

namespace PasswordGen

/-- `string.ascii_lowercase`. -/
def ascii_lowercase : List Char := "abcdefghijklmnopqrstuvwxyz".toList

/-- `string.ascii_uppercase`. -/
def ascii_uppercase : List Char := "ABCDEFGHIJKLMNOPQRSTUVWXYZ".toList

/-- `string.digits`. -/
def digits : List Char := "0123456789".toList

/-- `string.punctuation` (32 ASCII punctuation characters). -/
def punctuation : List Char :=
  "!\"#$%&\x27()*+,-./:;<=>?@[\\]^_\x60\x7b|\x7d~".toList

/-- `all_chars = lower + upper + digits + symbols` from `generate_password`. -/
def all_chars : List Char := ascii_lowercase ++ ascii_uppercase ++ digits ++ punctuation

/-- `random.choice(l)`: one uniformly random element of a nonempty
sequence.  The random outcome is the supplied index `k`, reduced modulo
the length so that every `k` denotes a valid draw. -/
def choice (l : List Char) (k : Nat) : Char := l.getD (k % l.length) 'a'

/-- `generate_password(length)` from `password_genrator.py`.  The random
source is explicit: `c1 c2 c3 c4` are the outcomes of the four mandatory
`random.choice` draws, `fill i` the outcome of the `i`-th extra draw from
`all_chars`, and `shuffle` the action of `random.shuffle`, which replaces
the list by one of its permutations (theorems quantify over every
`shuffle` that permutes its input). -/
def generate_password (length : Int) (c1 c2 c3 c4 : Nat) (fill : Nat → Nat)
    (shuffle : List Char → List Char) : String :=
  let password := [choice ascii_lowercase c1, choice ascii_uppercase c2,
                   choice digits c3, choice punctuation c4]
  let password := if length > 4 then
      password ++ (List.range (length - 4).toNat).map (fun i => choice all_chars (fill i))
    else password
  String.mk (shuffle password)

theorem choice_mem (l : List Char) (k : Nat) (h : l ≠ []) : choice l k ∈ l := by
  have hlen : 0 < l.length := List.length_pos.mpr h
  have hk : k % l.length < l.length := Nat.mod_lt _ hlen
  unfold choice
  rw [List.getD_eq_getElem l 'a' hk]
  exact List.getElem_mem hk

/-- The pre-shuffle list built by `generate_password`. -/
def password_base (length : Int) (c1 c2 c3 c4 : Nat) (fill : Nat → Nat) : List Char :=
  let password := [choice ascii_lowercase c1, choice ascii_uppercase c2,
                   choice digits c3, choice punctuation c4]
  if length > 4 then
    password ++ (List.range (length - 4).toNat).map (fun i => choice all_chars (fill i))
  else password

theorem generate_password_eq (length : Int) (c1 c2 c3 c4 : Nat) (fill : Nat → Nat)
    (shuffle : List Char → List Char) :
    generate_password length c1 c2 c3 c4 fill shuffle =
      String.mk (shuffle (password_base length c1 c2 c3 c4 fill)) := rfl

theorem password_base_length (length : Int) (c1 c2 c3 c4 : Nat) (fill : Nat → Nat) :
    (password_base length c1 c2 c3 c4 fill).length =
      if length > 4 then (length.toNat) else 4 := by
  unfold password_base
  by_cases h : length > 4
  · simp only [h, if_pos, List.length_append, List.length_map, List.length_range]
    simp only [List.length_cons, List.length_nil]
    omega
  · simp [h]

theorem password_base_mem (length : Int) (c1 c2 c3 c4 : Nat) (fill : Nat → Nat) :
    choice ascii_lowercase c1 ∈ password_base length c1 c2 c3 c4 fill ∧
    choice ascii_uppercase c2 ∈ password_base length c1 c2 c3 c4 fill ∧
    choice digits c3 ∈ password_base length c1 c2 c3 c4 fill ∧
    choice punctuation c4 ∈ password_base length c1 c2 c3 c4 fill := by
  unfold password_base
  by_cases h : length > 4 <;> simp [h]

theorem ascii_lowercase_ne_nil : ascii_lowercase ≠ [] := by decide

theorem ascii_uppercase_ne_nil : ascii_uppercase ≠ [] := by decide

theorem digits_ne_nil : digits ≠ [] := by decide

theorem punctuation_ne_nil : punctuation ≠ [] := by decide

/-- C1: For every integer `length ≥ 4`, `generate_password(length)` returns a
string of exactly `length` characters containing at least one lowercase
letter, one uppercase letter, one decimal digit, and one punctuation symbol,
for every outcome of the random source (every sequence of `random.choice`
draws and every permutation produced by `random.shuffle`). -/
theorem generate_password_length_and_classes (length : Int) (hlen : 4 ≤ length)
    (c1 c2 c3 c4 : Nat) (fill : Nat → Nat) (shuffle : List Char → List Char)
    (hshuffle : ∀ l, (shuffle l).Perm l) :
    (generate_password length c1 c2 c3 c4 fill shuffle).length = length.toNat ∧
    (∃ c ∈ (generate_password length c1 c2 c3 c4 fill shuffle).toList, c ∈ ascii_lowercase) ∧
    (∃ c ∈ (generate_password length c1 c2 c3 c4 fill shuffle).toList, c ∈ ascii_uppercase) ∧
    (∃ c ∈ (generate_password length c1 c2 c3 c4 fill shuffle).toList, c ∈ digits) ∧
    (∃ c ∈ (generate_password length c1 c2 c3 c4 fill shuffle).toList, c ∈ punctuation) := by
  have hperm := hshuffle (password_base length c1 c2 c3 c4 fill)
  have hmem := password_base_mem length c1 c2 c3 c4 fill
  have htl : (generate_password length c1 c2 c3 c4 fill shuffle).toList =
      shuffle (password_base length c1 c2 c3 c4 fill) := rfl
  have hstrlen : (generate_password length c1 c2 c3 c4 fill shuffle).length =
      (shuffle (password_base length c1 c2 c3 c4 fill)).length := rfl
  refine ⟨?_, ?_, ?_, ?_, ?_⟩
  · rw [hstrlen, hperm.length_eq, password_base_length]
    by_cases h : length > 4
    · simp [h]
    · simp only [h, if_neg, if_false]
      omega
  · exact ⟨choice ascii_lowercase c1, htl ▸ hperm.mem_iff.mpr hmem.1,
      choice_mem _ _ ascii_lowercase_ne_nil⟩
  · exact ⟨choice ascii_uppercase c2, htl ▸ hperm.mem_iff.mpr hmem.2.1,
      choice_mem _ _ ascii_uppercase_ne_nil⟩
  · exact ⟨choice digits c3, htl ▸ hperm.mem_iff.mpr hmem.2.2.1,
      choice_mem _ _ digits_ne_nil⟩
  · exact ⟨choice punctuation c4, htl ▸ hperm.mem_iff.mpr hmem.2.2.2,
      choice_mem _ _ punctuation_ne_nil⟩

/-- Witness for C1: `generate_password` at `length = 6` with the identity
shuffle and all-zero random draws satisfies the stated property. -/
theorem generate_password_length_and_classes_witness :
    (generate_password 6 0 0 0 0 (fun _ => 0) id).length = (6 : Int).toNat ∧
    (∃ c ∈ (generate_password 6 0 0 0 0 (fun _ => 0) id).toList, c ∈ ascii_lowercase) ∧
    (∃ c ∈ (generate_password 6 0 0 0 0 (fun _ => 0) id).toList, c ∈ ascii_uppercase) ∧
    (∃ c ∈ (generate_password 6 0 0 0 0 (fun _ => 0) id).toList, c ∈ digits) ∧
    (∃ c ∈ (generate_password 6 0 0 0 0 (fun _ => 0) id).toList, c ∈ punctuation) :=
  generate_password_length_and_classes 6 (by decide) 0 0 0 0 (fun _ => 0) id
    (fun l => List.Perm.refl l)

/-- C10: For every integer `length ≤ 4` (including 0 and negatives),
`generate_password(length)` returns a string of exactly 4 characters, a
permutation of one draw from each of the four character classes, ignoring
the requested length entirely. -/
theorem generate_password_short_input (length : Int) (hlen : length ≤ 4)
    (c1 c2 c3 c4 : Nat) (fill : Nat → Nat) (shuffle : List Char → List Char)
    (hshuffle : ∀ l, (shuffle l).Perm l) :
    (generate_password length c1 c2 c3 c4 fill shuffle).length = 4 ∧
    (generate_password length c1 c2 c3 c4 fill shuffle).toList.Perm
      [choice ascii_lowercase c1, choice ascii_uppercase c2,
       choice digits c3, choice punctuation c4] ∧
    choice ascii_lowercase c1 ∈ ascii_lowercase ∧
    choice ascii_uppercase c2 ∈ ascii_uppercase ∧
    choice digits c3 ∈ digits ∧
    choice punctuation c4 ∈ punctuation := by
  have hnot : ¬ (length > 4) := by omega
  have hbase : password_base length c1 c2 c3 c4 fill =
      [choice ascii_lowercase c1, choice ascii_uppercase c2,
       choice digits c3, choice punctuation c4] := by
    unfold password_base
    simp [hnot]
  have hperm := hshuffle (password_base length c1 c2 c3 c4 fill)
  have htl : (generate_password length c1 c2 c3 c4 fill shuffle).toList =
      shuffle (password_base length c1 c2 c3 c4 fill) := rfl
  have hstrlen : (generate_password length c1 c2 c3 c4 fill shuffle).length =
      (shuffle (password_base length c1 c2 c3 c4 fill)).length := rfl
  refine ⟨?_, ?_, choice_mem _ _ ascii_lowercase_ne_nil,
    choice_mem _ _ ascii_uppercase_ne_nil, choice_mem _ _ digits_ne_nil,
    choice_mem _ _ punctuation_ne_nil⟩
  · rw [hstrlen, hperm.length_eq, hbase]
    rfl
  · rw [htl, ← hbase]
    exact hperm

/-- Witness for C10: `generate_password` at `length = -3` with the identity
shuffle returns a 4-character string drawn one from each class. -/
theorem generate_password_short_input_witness :
    (generate_password (-3) 0 0 0 0 (fun _ => 0) id).length = 4 ∧
    (generate_password (-3) 0 0 0 0 (fun _ => 0) id).toList.Perm
      [choice ascii_lowercase 0, choice ascii_uppercase 0,
       choice digits 0, choice punctuation 0] ∧
    choice ascii_lowercase 0 ∈ ascii_lowercase ∧
    choice ascii_uppercase 0 ∈ ascii_uppercase ∧
    choice digits 0 ∈ digits ∧
    choice punctuation 0 ∈ punctuation :=
  generate_password_short_input (-3) (by decide) 0 0 0 0 (fun _ => 0) id
    (fun l => List.Perm.refl l)

end PasswordGen

namespace Todo

/-- A parsed JSON value, as produced by `json.load`.  An `obj` models a
Python dict after parsing, so its keys are unique. -/
inductive Json where
  | null
  | bool (b : Bool)
  | num (n : Int)
  | str (s : String)
  | arr (items : List Json)
  | obj (fields : List (String × Json))

/-- The `Task` dataclass of `todo.py`: id, description, category, status,
created_at. -/
structure Task where
  id : Int
  description : String
  category : String
  status : String
  created_at : String
deriving DecidableEq

/-- The default `status` value of a freshly constructed `Task`. -/
def pending_status : String := "Pending"

/-- The status string written by `complete_task`. -/
def done_status : String := "Done ✅"

/-- `Task.to_dict`: the five fields by name. -/
def Task.to_dict (t : Task) : Json :=
  .obj [("id", .num t.id), ("description", .str t.description),
        ("category", .str t.category), ("status", .str t.status),
        ("created_at", .str t.created_at)]

/-- Dict key lookup, `data[key]`; `none` models a `KeyError`. -/
def lookupField : List (String × Json) → String → Option Json
  | [], _ => none
  | (k, v) :: rest, key => if k = key then some v else lookupField rest key

def asInt : Json → Option Int
  | .num n => some n
  | _ => none

def asStr : Json → Option String
  | .str s => some s
  | _ => none

/-- `Task.from_dict`.  `none` models an uncaught exception: `data["k"]`
raises `TypeError` when `data` is not a dict and `KeyError` when the key
is missing.  Python is dynamically typed; field values are modelled at
their declared types (`id` an integer, the rest strings). -/
def Task.from_dict (data : Json) : Option Task :=
  match data with
  | .obj fields => do
    let i ← lookupField fields "id" >>= asInt
    let d ← lookupField fields "description" >>= asStr
    let c ← lookupField fields "category" >>= asStr
    let s ← lookupField fields "status" >>= asStr
    let ca ← lookupField fields "created_at" >>= asStr
    some ⟨i, d, c, s, ca⟩
  | _ => none

/-- The persisted resource `tasks.json`: absent, present but not valid
JSON, or present and parsing to a JSON value. -/
inductive FileState where
  | missing
  | corrupt
  | content (j : Json)

/-- The JSON document written by `save_tasks`:
`[task.to_dict() for task in self.tasks]`. -/
def serialize (tasks : List Task) : Json := .arr (tasks.map Task.to_dict)

/-- The body of `TodoManager.load_tasks`, applied to the disk state and
the current in-memory list; `none` models an uncaught exception.  A
missing file returns early, leaving the list as it was; a
`json.JSONDecodeError` is caught and resets the list to `[]`.  The
comprehension `[Task.from_dict(item) for item in data]` iterates `data`:
a JSON array yields its items; an empty dict or empty string yields
nothing (so the list becomes `[]`); any other value either is not
iterable (`TypeError`, uncaught) or yields non-dict items on which
`from_dict` raises (uncaught). -/
def decode_items : List Json → Option (List Task)
  | [] => some []
  | item :: rest => do
    let t ← Task.from_dict item
    let ts ← decode_items rest
    some (t :: ts)

def load_result : FileState → List Task → Option (List Task)
  | .missing, current => some current
  | .corrupt, _ => some []
  | .content j, _ =>
    match j with
    | .arr items => decode_items items
    | .obj [] => some []
    | .str s => if s = "" then some [] else none
    | _ => none

/-- `TodoManager` state: the in-memory task list plus the disk it
mirrors. -/
structure Manager where
  tasks : List Task
  disk : FileState

/-- `TodoManager.__init__`: start with `tasks = []`, then `load_tasks`;
`none` models the constructor raising. -/
def Manager.init (disk : FileState) : Option Manager :=
  (load_result disk []).map (fun ts => ⟨ts, disk⟩)

/-- `TodoManager.save_tasks`: full rewrite of the file with the
serialized in-memory collection. -/
def Manager.save_tasks (m : Manager) : Manager :=
  { m with disk := .content (serialize m.tasks) }

/-- `max(t.id for t in self.tasks)`; only ever applied to a nonempty
list in `add_task` (guarded by `if not self.tasks`). -/
def max_id : List Task → Int
  | [] => 0
  | t :: ts => ts.foldl (fun acc u => max acc u.id) t.id

/-- `new_id = 1 if not self.tasks else max(t.id for t in self.tasks) + 1`. -/
def new_task_id (tasks : List Task) : Int :=
  if tasks = [] then 1 else max_id tasks + 1

/-- `TodoManager.add_task`: construct the `Task` (status and timestamp
from their dataclass defaults — the clock reading is the explicit `now`
argument), append it, save.  The Python function has no `return`
statement, so its value is `None`, modelled as the second component
`none`. -/
def Manager.add_task (m : Manager) (description category now : String) :
    Manager × Option Task :=
  let new_id := new_task_id m.tasks
  let task : Task := ⟨new_id, description, category, pending_status, now⟩
  (Manager.save_tasks { m with tasks := m.tasks ++ [task] }, none)

/-- The `for` loop of `complete_task`: set the status of the first task
with matching id and report whether one was found. -/
def complete_list : List Task → Int → List Task × Bool
  | [], _ => ([], false)
  | t :: ts, i =>
    if t.id = i then ({ t with status := done_status } :: ts, true)
    else
      let r := complete_list ts i
      (t :: r.1, r.2)

/-- `TodoManager.complete_task`: on the first match, set its status,
save and return `True`; otherwise return `False` with no write. -/
def Manager.complete_task (m : Manager) (task_id : Int) : Manager × Bool :=
  let r := complete_list m.tasks task_id
  if r.2 then (Manager.save_tasks { m with tasks := r.1 }, true)
  else (m, false)

/-- `TodoManager.delete_task`:
`self.tasks = [t for t in self.tasks if t.id != task_id]`; save and
return `True` exactly when the list shrank. -/
def Manager.delete_task (m : Manager) (task_id : Int) : Manager × Bool :=
  let remaining := m.tasks.filter (fun t => t.id ≠ task_id)
  if remaining.length < m.tasks.length then
    (Manager.save_tasks { m with tasks := remaining }, true)
  else (m, false)

/-- `TodoManager.get_all_tasks`. -/
def Manager.get_all_tasks (m : Manager) : List Task := m.tasks

theorem from_dict_to_dict (t : Task) : Task.from_dict (Task.to_dict t) = some t := by
  cases t
  simp [Task.to_dict, Task.from_dict, lookupField, asInt, asStr]

/-- C2: Saving a list of tasks and then loading yields a collection equal
to the original in both content (all five fields of every task) and order:
for every task list, every prior disk state and every in-memory list at
load time, reading back what `save_tasks` wrote succeeds and returns
exactly the saved list. -/
theorem save_then_load_roundtrip (tasks cur : List Task) (d : FileState) :
    load_result (Manager.save_tasks ⟨tasks, d⟩).disk cur = some tasks := by
  show decode_items (tasks.map Task.to_dict) = some tasks
  induction tasks with
  | nil => rfl
  | cons t ts ih => simp [decode_items, from_dict_to_dict, ih]

/-- Counterexample to C5 as stated: the file content `[{}]` is valid JSON
(an array holding one empty object), yet loading it makes
`Task.from_dict` raise an uncaught `KeyError` (`data["id"]` with no such
key), so `load` raises instead of falling back to an empty collection. -/
theorem load_raises_on_malformed_item :
    Manager.init (.content (.arr [.obj []])) = none := rfl

/-- C5 (amended): `load()` never raises when the persisted resource is
missing (the collection stays the startup-empty list) or when its content
is not parseable as JSON (silent fallback to the empty collection); but
when the content is valid JSON whose items are not records carrying the
five task fields, the decoding error is not caught and `load` raises. -/
theorem load_missing_or_corrupt_yields_empty :
    Manager.init .missing = some ⟨[], .missing⟩ ∧
    Manager.init .corrupt = some ⟨[], .corrupt⟩ :=
  ⟨rfl, rfl⟩

/-- Counterexample to C9 as stated: `add_task` has no return statement,
so it returns `None` — not the created Task.  On an empty store the
created task is appended (it is the last element of the collection), yet
the returned value is `none`, which differs from it. -/
theorem add_task_returns_none_counterexample :
    (Manager.add_task ⟨[], .missing⟩ "buy milk" "Personal" "2024-01-01 00:00").2 = none ∧
    (Manager.add_task ⟨[], .missing⟩ "buy milk" "Personal" "2024-01-01 00:00").1.tasks.getLast?
      = some ⟨1, "buy milk", "Personal", pending_status, "2024-01-01 00:00"⟩ ∧
    (Manager.add_task ⟨[], .missing⟩ "buy milk" "Personal" "2024-01-01 00:00").2 ≠
      (Manager.add_task ⟨[], .missing⟩ "buy milk" "Personal" "2024-01-01 00:00").1.tasks.getLast? := by
  refine ⟨rfl, rfl, ?_⟩
  intro h
  exact Option.noConfusion (h.symm.trans rfl)

/-- C9 (amended): `add_task(description, category)` constructs the new
Task and appends it to the collection (it becomes the last element), but
the function returns `None` rather than the created Task. -/
theorem add_task_appends_created_task (m : Manager) (description category now : String) :
    (Manager.add_task m description category now).2 = none ∧
    (Manager.add_task m description category now).1.tasks.getLast? =
      some ⟨new_task_id m.tasks, description, category, pending_status, now⟩ := by
  refine ⟨rfl, ?_⟩
  show (m.tasks ++ [_]).getLast? = _
  rw [List.getLast?_concat]

/-- C6: `add_task(description, category)` creates a task whose id is
`max(existing ids) + 1`, or 1 if the store is empty, with status Pending
and the given category, and appends it to the end of the collection; on
an empty store the first add yields id 1 and a second add yields id 2. -/
theorem add_task_assigns_ids_and_appends (m : Manager) (description category now : String) :
    (Manager.add_task m description category now).1.tasks =
      m.tasks ++ [⟨new_task_id m.tasks, description, category, pending_status, now⟩] ∧
    new_task_id m.tasks = (if m.tasks = [] then 1 else max_id m.tasks + 1) ∧
    (Manager.add_task ⟨[], .missing⟩ description category now).1.tasks.map Task.id = [1] ∧
    (Manager.add_task (Manager.add_task ⟨[], .missing⟩ description category now).1
        description category now).1.tasks.map Task.id = [1, 2] :=
  ⟨rfl, rfl, rfl, rfl⟩

theorem complete_list_not_found (ts : List Task) (i : Int) (h : ∀ t ∈ ts, t.id ≠ i) :
    complete_list ts i = (ts, false) := by
  induction ts with
  | nil => rfl
  | cons t ts ih =>
    have ht : t.id ≠ i := h t (List.mem_cons_self t ts)
    simp only [complete_list, if_neg ht]
    rw [ih (fun u hu => h u (List.mem_cons_of_mem t hu))]

theorem complete_list_found (p : List Task) (t : Task) (s : List Task) (i : Int)
    (hp : ∀ u ∈ p, u.id ≠ i) (ht : t.id = i) :
    complete_list (p ++ t :: s) i = (p ++ { t with status := done_status } :: s, true) := by
  induction p with
  | nil => simp [complete_list, ht]
  | cons u p ih =>
    have hu : u.id ≠ i := hp u (List.mem_cons_self u p)
    have ihr := ih (fun v hv => hp v (List.mem_cons_of_mem u hv))
    simp [complete_list, if_neg hu, ihr]

/-- C3: `complete_task(id)` finds the first task with matching id in
insertion order and, if found, sets its status to Done (written as the
status string `done_status`), persists, and returns true; if no task
matches, it returns false and performs no write (the manager, disk
included, is unchanged); calling it again on the already-completed store
returns true and leaves the store — hence the Done status — unchanged. -/
theorem complete_task_first_match (m : Manager) (task_id : Int) :
    (∀ p t s, m.tasks = p ++ t :: s → (∀ u ∈ p, u.id ≠ task_id) → t.id = task_id →
      Manager.complete_task m task_id =
        (Manager.save_tasks { m with tasks := p ++ { t with status := done_status } :: s },
         true)) ∧
    ((∀ t ∈ m.tasks, t.id ≠ task_id) → Manager.complete_task m task_id = (m, false)) ∧
    (∀ p t s, m.tasks = p ++ t :: s → (∀ u ∈ p, u.id ≠ task_id) → t.id = task_id →
      Manager.complete_task (Manager.complete_task m task_id).1 task_id =
        ((Manager.complete_task m task_id).1, true)) := by
  refine ⟨?_, ?_, ?_⟩
  · intro p t s hm hp ht
    unfold Manager.complete_task
    rw [hm, complete_list_found p t s task_id hp ht]
    rfl
  · intro h
    unfold Manager.complete_task
    rw [complete_list_not_found m.tasks task_id h]
    rfl
  · intro p t s hm hp ht
    have h1 : Manager.complete_task m task_id =
        (Manager.save_tasks { m with tasks := p ++ { t with status := done_status } :: s },
         true) := by
      unfold Manager.complete_task
      rw [hm, complete_list_found p t s task_id hp ht]
      rfl
    rw [h1]
    have ht2 : ({ t with status := done_status } : Task).id = task_id := ht
    show Manager.complete_task
        (Manager.save_tasks { m with tasks := p ++ { t with status := done_status } :: s })
        task_id = _
    unfold Manager.complete_task
    rw [show (Manager.save_tasks
          { m with tasks := p ++ { t with status := done_status } :: s }).tasks =
        p ++ { t with status := done_status } :: s from rfl,
      complete_list_found p { t with status := done_status } s task_id hp ht2]
    rfl

/-- Witness for C3 on a concrete store: completing id 2 on
`[⟨1,…,Pending⟩, ⟨2,…,Pending⟩]` sets the second task's status and
returns true; completing id 9 returns false and changes nothing;
completing id 2 twice is idempotent. -/
theorem complete_task_first_match_witness :
    Manager.complete_task ⟨[⟨1, "a", "General", pending_status, "t"⟩,
                            ⟨2, "b", "General", pending_status, "t"⟩], .missing⟩ 2 =
      (Manager.save_tasks
        { tasks := [⟨1, "a", "General", pending_status, "t"⟩] ++
            ({ (⟨2, "b", "General", pending_status, "t"⟩ : Task) with
                status := done_status } : Task) :: ([] : List Task),
          disk := .missing },
       true) ∧
    Manager.complete_task ⟨[⟨1, "a", "General", pending_status, "t"⟩,
                            ⟨2, "b", "General", pending_status, "t"⟩], .missing⟩ 9 =
      (⟨[⟨1, "a", "General", pending_status, "t"⟩,
         ⟨2, "b", "General", pending_status, "t"⟩], .missing⟩, false) ∧
    Manager.complete_task
        (Manager.complete_task ⟨[⟨1, "a", "General", pending_status, "t"⟩,
                                 ⟨2, "b", "General", pending_status, "t"⟩], .missing⟩ 2).1 2 =
      ((Manager.complete_task ⟨[⟨1, "a", "General", pending_status, "t"⟩,
                                ⟨2, "b", "General", pending_status, "t"⟩], .missing⟩ 2).1,
       true) :=
  ⟨(complete_task_first_match ⟨[⟨1, "a", "General", pending_status, "t"⟩,
      ⟨2, "b", "General", pending_status, "t"⟩], .missing⟩ 2).1
      [⟨1, "a", "General", pending_status, "t"⟩] ⟨2, "b", "General", pending_status, "t"⟩ []
      rfl (by decide) rfl,
   (complete_task_first_match ⟨[⟨1, "a", "General", pending_status, "t"⟩,
      ⟨2, "b", "General", pending_status, "t"⟩], .missing⟩ 9).2.1 (by decide),
   (complete_task_first_match ⟨[⟨1, "a", "General", pending_status, "t"⟩,
      ⟨2, "b", "General", pending_status, "t"⟩], .missing⟩ 2).2.2
      [⟨1, "a", "General", pending_status, "t"⟩] ⟨2, "b", "General", pending_status, "t"⟩ []
      rfl (by decide) rfl⟩

/-- Counterexample to C4 as stated: on a store holding two tasks that
share id 1, `delete_task 1` removes BOTH of them (the comprehension keeps
only tasks whose id differs), not just the first matching task — removing
only the first would have left the second task behind. -/
theorem delete_task_removes_all_matching_counterexample :
    (Manager.delete_task ⟨[⟨1, "a", "General", pending_status, "t"⟩,
                           ⟨1, "b", "General", pending_status, "t"⟩], .missing⟩ 1).1.tasks
      = [] ∧
    ([] : List Task) ≠ [⟨1, "b", "General", pending_status, "t"⟩] := by
  refine ⟨rfl, ?_⟩
  intro h
  exact List.noConfusion h

/-- C4 (amended): `delete_task(id)` removes EVERY task with matching id
(which coincides with removing the first when ids are unique); if any
task matched it persists the filtered collection and returns true,
otherwise it returns false and performs no write. -/
theorem delete_task_filters_matching (m : Manager) (task_id : Int) :
    ((∃ t ∈ m.tasks, t.id = task_id) →
      Manager.delete_task m task_id =
        (Manager.save_tasks { m with tasks := m.tasks.filter (fun t => t.id ≠ task_id) },
         true)) ∧
    ((∀ t ∈ m.tasks, t.id ≠ task_id) → Manager.delete_task m task_id = (m, false)) := by
  constructor
  · rintro ⟨t, htm, hid⟩
    have hlt : (m.tasks.filter (fun t => t.id ≠ task_id)).length < m.tasks.length := by
      refine List.length_filter_lt_length_iff_exists.mpr ⟨t, htm, ?_⟩
      simp [hid]
    unfold Manager.delete_task
    rw [if_pos hlt]
  · intro h
    have heq : m.tasks.filter (fun t => t.id ≠ task_id) = m.tasks := by
      refine List.filter_eq_self.mpr ?_
      intro a ha
      simpa using h a ha
    unfold Manager.delete_task
    rw [heq, if_neg (lt_irrefl m.tasks.length)]

/-- Witness for C4 (amended) on a concrete store with ids 1, 2, 3:
deleting id 1 persists the filtered store and returns true — the
remaining collection is exactly the tasks with ids 2 and 3 — and deleting
id 99 returns false and leaves the store untouched. -/
theorem delete_task_filters_matching_witness :
    Manager.delete_task ⟨[⟨1, "a", "General", pending_status, "t"⟩,
                          ⟨2, "b", "General", pending_status, "t"⟩,
                          ⟨3, "c", "General", pending_status, "t"⟩], .missing⟩ 1 =
      (Manager.save_tasks
        { tasks := List.filter (fun t => t.id ≠ 1)
            [⟨1, "a", "General", pending_status, "t"⟩,
             ⟨2, "b", "General", pending_status, "t"⟩,
             ⟨3, "c", "General", pending_status, "t"⟩],
          disk := .missing },
       true) ∧
    List.filter (fun t => t.id ≠ 1)
        [(⟨1, "a", "General", pending_status, "t"⟩ : Task),
         ⟨2, "b", "General", pending_status, "t"⟩,
         ⟨3, "c", "General", pending_status, "t"⟩] =
      [⟨2, "b", "General", pending_status, "t"⟩,
       ⟨3, "c", "General", pending_status, "t"⟩] ∧
    Manager.delete_task ⟨[⟨1, "a", "General", pending_status, "t"⟩,
                          ⟨2, "b", "General", pending_status, "t"⟩,
                          ⟨3, "c", "General", pending_status, "t"⟩], .missing⟩ 99 =
      (⟨[⟨1, "a", "General", pending_status, "t"⟩,
         ⟨2, "b", "General", pending_status, "t"⟩,
         ⟨3, "c", "General", pending_status, "t"⟩], .missing⟩, false) :=
  ⟨(delete_task_filters_matching ⟨[⟨1, "a", "General", pending_status, "t"⟩,
        ⟨2, "b", "General", pending_status, "t"⟩,
        ⟨3, "c", "General", pending_status, "t"⟩], .missing⟩ 1).1
      ⟨⟨1, "a", "General", pending_status, "t"⟩, by decide, rfl⟩,
   by decide,
   (delete_task_filters_matching ⟨[⟨1, "a", "General", pending_status, "t"⟩,
        ⟨2, "b", "General", pending_status, "t"⟩,
        ⟨3, "c", "General", pending_status, "t"⟩], .missing⟩ 99).2 (by decide)⟩

/-- Counterexample to C7 as stated: starting from an empty store, two
adds yield ids 1 and 2; deleting id 2 succeeds; the next add assigns
`max(existing ids) + 1 = 2` — the id of the deleted task is reused. -/
theorem deleted_id_reused_counterexample :
    ((Manager.add_task ⟨[], .missing⟩ "a" "General" "t1").1.add_task
        "b" "General" "t2").1.tasks.map Task.id = [1, 2] ∧
    (((Manager.add_task ⟨[], .missing⟩ "a" "General" "t1").1.add_task
        "b" "General" "t2").1.delete_task 2).2 = true ∧
    ((((Manager.add_task ⟨[], .missing⟩ "a" "General" "t1").1.add_task
        "b" "General" "t2").1.delete_task 2).1.add_task
        "c" "General" "t3").1.tasks.map Task.id = [1, 2] := by
  refine ⟨rfl, rfl, rfl⟩

theorem foldl_max_le_init (ts : List Task) (acc : Int) :
    acc ≤ ts.foldl (fun a u => max a u.id) acc := by
  induction ts generalizing acc with
  | nil => exact le_refl acc
  | cons t ts ih => exact le_trans (le_max_left acc t.id) (ih (max acc t.id))

theorem foldl_max_le_of_mem (ts : List Task) (t : Task) (h : t ∈ ts) (acc : Int) :
    t.id ≤ ts.foldl (fun a u => max a u.id) acc := by
  induction ts generalizing acc with
  | nil => cases h
  | cons u us ih =>
    rcases List.mem_cons.mp h with rfl | hm
    · exact le_trans (le_max_right acc t.id) (foldl_max_le_init us (max acc t.id))
    · exact ih hm (max acc u.id)

theorem le_max_id_of_mem (ts : List Task) (t : Task) (h : t ∈ ts) : t.id ≤ max_id ts := by
  cases ts with
  | nil => cases h
  | cons u us =>
    rcases List.mem_cons.mp h with rfl | hm
    · exact foldl_max_le_init us t.id
    · exact foldl_max_le_of_mem us t hm u.id

/-- C7 (amended): ids CAN be reused after deletion (see the
counterexample: deleting the task with the greatest id makes the next add
reassign it).  What does hold is that `add_task` never reassigns an id
`d` while some task with id ≥ `d` is still in the store: the id it
assigns, `new_task_id`, exceeds every id present, and the new collection
is the old one plus that one task. -/
theorem add_task_no_reuse_of_live_ids (m : Manager) (description category now : String)
    (d : Int) (h : ∃ t ∈ m.tasks, d ≤ t.id) :
    new_task_id m.tasks ≠ d ∧
    (Manager.add_task m description category now).1.tasks =
      m.tasks ++ [⟨new_task_id m.tasks, description, category, pending_status, now⟩] := by
  refine ⟨?_, rfl⟩
  obtain ⟨t, htm, hd⟩ := h
  have hne : m.tasks ≠ [] := by
    intro hnil
    rw [hnil] at htm
    cases htm
  have hle : t.id ≤ max_id m.tasks := le_max_id_of_mem m.tasks t htm
  unfold new_task_id
  rw [if_neg hne]
  omega

/-- Witness for C7 (amended): a store holding a single task with id 5
never hands out id 3 on the next add. -/
theorem add_task_no_reuse_of_live_ids_witness :
    new_task_id [⟨5, "a", "General", pending_status, "t"⟩] ≠ 3 ∧
    (Manager.add_task ⟨[⟨5, "a", "General", pending_status, "t"⟩], .missing⟩
        "b" "General" "t2").1.tasks =
      [⟨5, "a", "General", pending_status, "t"⟩] ++
        [⟨new_task_id [⟨5, "a", "General", pending_status, "t"⟩],
          "b", "General", pending_status, "t2"⟩] :=
  add_task_no_reuse_of_live_ids ⟨[⟨5, "a", "General", pending_status, "t"⟩], .missing⟩
    "b" "General" "t2" 3 ⟨⟨5, "a", "General", pending_status, "t"⟩, by decide, by decide⟩

/-- C8: write-through — after `add_task` (always), and after
`complete_task` or `delete_task` whenever they found their target
(returned true), the on-disk JSON equals the serialization of the full
in-memory collection; every successful mutation persists the whole
collection immediately. -/
theorem write_through_after_mutations (m : Manager) (description category now : String)
    (i j : Int) :
    (Manager.add_task m description category now).1.disk =
      .content (serialize (Manager.add_task m description category now).1.tasks) ∧
    ((Manager.complete_task m i).2 = true →
      (Manager.complete_task m i).1.disk =
        .content (serialize (Manager.complete_task m i).1.tasks)) ∧
    ((Manager.delete_task m j).2 = true →
      (Manager.delete_task m j).1.disk =
        .content (serialize (Manager.delete_task m j).1.tasks)) := by
  have hceq : Manager.complete_task m i =
      if (complete_list m.tasks i).2 then
        (Manager.save_tasks { m with tasks := (complete_list m.tasks i).1 }, true)
      else (m, false) := rfl
  have hdeq : Manager.delete_task m j =
      if (m.tasks.filter (fun t => t.id ≠ j)).length < m.tasks.length then
        (Manager.save_tasks { m with tasks := m.tasks.filter (fun t => t.id ≠ j) }, true)
      else (m, false) := rfl
  refine ⟨rfl, ?_, ?_⟩
  · intro h
    rw [hceq]
    cases hb : (complete_list m.tasks i).2 with
    | true => rfl
    | false =>
      rw [hceq, hb] at h
      simp at h
  · intro h
    rw [hdeq]
    by_cases hlt : (m.tasks.filter (fun t => t.id ≠ j)).length < m.tasks.length
    · rw [if_pos hlt]
      rfl
    · rw [hdeq, if_neg hlt] at h
      simp at h

/-- Witness for C8: on a one-task store, completing its task and deleting
its task each leave the disk equal to the serialized in-memory list (and
the add conjunct is hypothesis-free). -/
theorem write_through_after_mutations_witness :
    (Manager.complete_task ⟨[⟨1, "a", "General", pending_status, "t"⟩], .missing⟩ 1).1.disk =
      .content (serialize
        (Manager.complete_task ⟨[⟨1, "a", "General", pending_status, "t"⟩], .missing⟩ 1).1.tasks) ∧
    (Manager.delete_task ⟨[⟨1, "a", "General", pending_status, "t"⟩], .missing⟩ 1).1.disk =
      .content (serialize
        (Manager.delete_task ⟨[⟨1, "a", "General", pending_status, "t"⟩], .missing⟩ 1).1.tasks) :=
  ⟨(write_through_after_mutations ⟨[⟨1, "a", "General", pending_status, "t"⟩], .missing⟩
      "x" "General" "t2" 1 1).2.1 (by decide),
   (write_through_after_mutations ⟨[⟨1, "a", "General", pending_status, "t"⟩], .missing⟩
      "x" "General" "t2" 1 1).2.2 (by decide)⟩

end Todo
